import Mathlib

/-!
Verification of the qr-code-generator terminal wizard (Go).

Shallow embedding of the program's pure core: the color/path configuration
helpers (`internal/config`), the content-template encoders
(`internal/templates/templates.go`), the terminal preview renderer
(`internal/generator/terminal.go`), the file-picker state machine
(`internal/ui/filepicker.go`), the template sub-form wizard
(`internal/ui/template_wizard.go`) and the step wizard state machine
(`internal/ui/model.go`).

Go strings are modelled either as Lean `String` (for the encoders and the
wizard, whose inputs of interest are processed character-wise) or as byte
lists `List Nat` (for the hex-color parser, which slices byte ranges).
Machine integers (`int`) are modelled as `Int` with explicit bounds where
the code checks them; fallible operations return `Option`.
-/

namespace QRGen

namespace Go

/-- `unicode.IsSpace`: Unicode White_Space property, as used by
`strings.TrimSpace` in Go. -/
def goIsSpace (c : Char) : Bool :=
  let n := c.toNat
  (9 ≤ n && n ≤ 13) || n == 32 || n == 0x85 || n == 0xA0 || n == 0x1680 ||
  (0x2000 ≤ n && n ≤ 0x200A) || n == 0x2028 || n == 0x2029 ||
  n == 0x202F || n == 0x205F || n == 0x3000

/-- `strings.TrimSpace`: drop leading and trailing white space. -/
def goTrimSpace (s : String) : String :=
  ⟨((s.toList.dropWhile goIsSpace).reverse.dropWhile goIsSpace).reverse⟩

/-- ASCII decimal digit test, as in `strconv`. -/
def isDigitChar (c : Char) : Bool :=
  48 ≤ c.toNat && c.toNat ≤ 57

/-- `strconv.Atoi` on a 64-bit platform: optional single sign, then one or
more ASCII digits, result within `int64` range; anything else errors
(`none`). -/
def goAtoiAux (neg : Bool) (digits : List Char) : Option Int :=
  if digits.isEmpty then none
  else if digits.all isDigitChar then
    let v : Nat := digits.foldl (fun a c => 10 * a + (c.toNat - 48)) 0
    let i : Int := if neg then -(v : Int) else (v : Int)
    if -(2 ^ 63) ≤ i ∧ i ≤ 2 ^ 63 - 1 then some i else none
  else none

def goAtoi (s : String) : Option Int :=
  match s.toList with
  | [] => none
  | '-' :: rest => goAtoiAux true rest
  | '+' :: rest => goAtoiAux false rest
  | cs => goAtoiAux false cs

/-- `strings.ReplaceAll s (String.singleton old) new`: every pattern in the
source is a single character, so a character-wise expansion is exact. -/
def goReplaceAllChar (s : String) (old : Char) (new : String) : String :=
  ⟨s.toList.flatMap (fun c => if c = old then new.toList else [c])⟩

/-- The UTF-8 bytes of a Go string, for the byte-sliced code paths.  All
inputs whose behavior the claims depend on are ASCII, where code points and
bytes coincide; non-ASCII characters map to their code points, which are
never hex digits or ASCII digits, matching the Go byte-wise rejection. -/
def strBytes (s : String) : List Nat :=
  s.toList.map Char.toNat

end Go

namespace Config

/-- Go strings as byte sequences for `internal/config`'s byte-sliced
parser. -/
abbrev GoStr := List Nat

/-- `color.RGBA`: four 8-bit channels.  Channels are bytes (`uint8`); every
constructor in the modelled code produces values `< 256`. -/
structure RGBA where
  r : Nat
  g : Nat
  b : Nat
  a : Nat
deriving DecidableEq, Repr

/-- ASCII hex-digit test on a byte, as accepted by
`strconv.ParseUint(_, 16, 8)`. -/
def isHexDigitByte (n : Nat) : Bool :=
  (48 ≤ n && n ≤ 57) || (65 ≤ n && n ≤ 70) || (97 ≤ n && n ≤ 102)

/-- Value of an ASCII hex digit byte. -/
def hexValByte (n : Nat) : Nat :=
  if n ≤ 57 then n - 48 else if n ≤ 70 then n - 55 else n - 87

/-- `strconv.ParseUint(s, 16, 8)`: nonempty, all hex digits, value below
`2^8`; no sign, no prefix. -/
def parseUintHex8 (s : GoStr) : Option Nat :=
  if s.isEmpty then none
  else if s.all isHexDigitByte then
    let v := s.foldl (fun a b => 16 * a + hexValByte b) 0
    if v < 256 then some v else none
  else none

/-- `strings.TrimPrefix(s, "#")`: drop one leading `'#'` (byte 35) if
present. -/
def trimHashOnce (s : GoStr) : GoStr :=
  match s with
  | 35 :: rest => rest
  | _ => s

/-- `config.ParseHexColor`: strip one `#`, require exactly 6 bytes, parse
three two-digit hex components. -/
def ParseHexColor (s : GoStr) : Option RGBA :=
  let hex := trimHashOnce s
  if hex.length = 6 then
    match parseUintHex8 (hex.take 2), parseUintHex8 ((hex.drop 2).take 2),
        parseUintHex8 ((hex.drop 4).take 2) with
    | some r, some g, some b => some ⟨r, g, b, 255⟩
    | _, _, _ => none
  else none

/-- Uppercase hex digit byte for a value `< 16`, as printed by `%X`. -/
def upperHexDigit (d : Nat) : Nat :=
  if d < 10 then 48 + d else 55 + d

/-- `%02X` applied to a byte (`uint8`): exactly two uppercase hex digits. -/
def formatByteHex (n : Nat) : GoStr :=
  [upperHexDigit (n / 16), upperHexDigit (n % 16)]

/-- `config.ColorToHex`: `fmt.Sprintf("#%02X%02X%02X", c.R, c.G, c.B)`. -/
def ColorToHex (c : RGBA) : GoStr :=
  35 :: (formatByteHex c.r ++ formatByteHex c.g ++ formatByteHex c.b)

/-- ASCII uppercasing of a byte (hex digits only need `a`-`z`). -/
def upperByte (n : Nat) : Nat :=
  if 97 ≤ n ∧ n ≤ 122 then n - 32 else n

/-- Modelled from the spec: the "normalized form" of a hex color string —
`'#'` followed by the six hex digits uppercased. -/
def hexNormalizeSpec (s : GoStr) : GoStr :=
  35 :: (trimHashOnce s).map upperByte

/-- Modelled from the spec: a valid input is exactly 6 hex digits after
stripping one optional leading `'#'`. -/
def hexValidInput (s : GoStr) : Prop :=
  (trimHashOnce s).length = 6 ∧ ∀ b ∈ trimHashOnce s, isHexDigitByte b = true

instance (s : GoStr) : Decidable (hexValidInput s) := by
  unfold hexValidInput
  infer_instance

/-- `filepath.Ext`, scanning the reversed path: stop at a path separator,
return from the last dot (inclusive) to the end.  Unix separator `'/'`. -/
def goExtAux : List Char → List Char → List Char
  | [], _ => []
  | c :: rest, acc =>
    if c = '/' then []
    else if c = '.' then c :: acc
    else goExtAux rest (c :: acc)

/-- `filepath.Ext(path)`. -/
def goExt (path : List Char) : List Char :=
  goExtAux path.reverse []

/-- `strings.TrimSuffix(s, suf)`: remove `suf` when it is a suffix. -/
def goTrimSuffixStr (s suf : List Char) : List Char :=
  if suf <:+ s then s.take (s.length - suf.length) else s

/-- `QRConfig.SetOutputPath`: append `"." + format` when the path has no
extension, otherwise replace the extension. -/
def SetOutputPath (format : List Char) (path : List Char) : List Char :=
  let ext := goExt path
  if ext = [] then path ++ '.' :: format
  else goTrimSuffixStr path ext ++ '.' :: format

/-- `config.FormatPNG` (`OutputFormat` is a Go string type). -/
def FormatPNG : String := "png"

/-- `config.FormatSVG`. -/
def FormatSVG : String := "svg"

/-- `config.GetPredefinedColorNames()`. -/
def GetPredefinedColorNames : List String :=
  ["Black", "White", "Red", "Green", "Blue", "Purple",
   "Orange", "Cyan", "Pink", "Yellow", "Teal", "Indigo"]

/-- `config.PredefinedColors` map lookup; a missing key yields Go's zero
`color.RGBA`. -/
def PredefinedColors (name : String) : RGBA :=
  if name = "Black" then ⟨0, 0, 0, 255⟩
  else if name = "White" then ⟨255, 255, 255, 255⟩
  else if name = "Red" then ⟨220, 53, 69, 255⟩
  else if name = "Green" then ⟨40, 167, 69, 255⟩
  else if name = "Blue" then ⟨0, 123, 255, 255⟩
  else if name = "Purple" then ⟨111, 66, 193, 255⟩
  else if name = "Orange" then ⟨253, 126, 20, 255⟩
  else if name = "Cyan" then ⟨23, 162, 184, 255⟩
  else if name = "Pink" then ⟨232, 62, 140, 255⟩
  else if name = "Yellow" then ⟨255, 193, 7, 255⟩
  else if name = "Teal" then ⟨32, 201, 151, 255⟩
  else if name = "Indigo" then ⟨102, 16, 242, 255⟩
  else ⟨0, 0, 0, 0⟩

end Config

namespace Templates

/-- `templates.ContentType`. -/
inductive ContentType where
  | url
  | wifi
  | vcard
  | email
  | sms
  | text
deriving DecidableEq, Repr

/-- `templates.AvailableTypes()`, display-metadata dropped: the types in
display order. -/
def availableTypes : List ContentType :=
  [.url, .wifi, .vcard, .email, .sms, .text]

/-- `WiFiEncryption` is a Go string type; its three constants. -/
def WiFiWPA : String := "WPA"

def WiFiWEP : String := "WEP"

def WiFiNone : String := "nopass"

/-- `templates.WiFiEncryptionTypes()`: the selectable encryption values in
order (display names dropped). -/
def wiFiEncryptionTypes : List String :=
  [WiFiWPA, WiFiWEP, WiFiNone]

/-- `templates.WiFiData`. -/
structure WiFiData where
  SSID : String
  Password : String
  Encryption : String
  Hidden : Bool
deriving DecidableEq, Repr

/-- `templates.escapeWiFiField`: four sequential `strings.ReplaceAll`
passes, backslash first. -/
def escapeWiFiField (s : String) : String :=
  let s1 := Go.goReplaceAllChar s '\\' "\\\\"
  let s2 := Go.goReplaceAllChar s1 ';' "\\;"
  let s3 := Go.goReplaceAllChar s2 ':' "\\:"
  Go.goReplaceAllChar s3 '"' "\\\""

/-- `WiFiData.Encode`:
`fmt.Sprintf("WIFI:T:%s;S:%s;%s%s;", enc, escape(ssid), password, hidden)`
with the password segment present only for non-open encryption and the
hidden segment only when hidden. -/
def WiFiData.Encode (w : WiFiData) : String :=
  let hidden := if w.Hidden then "H:true;" else ""
  let password :=
    if w.Encryption ≠ WiFiNone then "P:" ++ escapeWiFiField w.Password ++ ";" else ""
  "WIFI:T:" ++ w.Encryption ++ ";S:" ++ escapeWiFiField w.SSID ++ ";" ++
    password ++ hidden ++ ";"

/-- `templates.VCardData`. -/
structure VCardData where
  FirstName : String
  LastName : String
  Phone : String
  Email : String
  Organization : String
  Title : String
  URL : String
deriving DecidableEq, Repr

/-- `VCardData.Encode`: vCard 3.0 block, CRLF line endings, optional
lines only when the field is non-empty. -/
def VCardData.Encode (v : VCardData) : String :=
  let fullName := Go.goTrimSpace (v.FirstName ++ " " ++ v.LastName)
  "BEGIN:VCARD\r\nVERSION:3.0\r\n" ++
    (if fullName ≠ "" then
      "FN:" ++ fullName ++ "\r\n" ++
        "N:" ++ v.LastName ++ ";" ++ v.FirstName ++ ";;;\r\n"
     else "") ++
    (if v.Organization ≠ "" then "ORG:" ++ v.Organization ++ "\r\n" else "") ++
    (if v.Title ≠ "" then "TITLE:" ++ v.Title ++ "\r\n" else "") ++
    (if v.Phone ≠ "" then "TEL;TYPE=CELL:" ++ v.Phone ++ "\r\n" else "") ++
    (if v.Email ≠ "" then "EMAIL:" ++ v.Email ++ "\r\n" else "") ++
    (if v.URL ≠ "" then "URL:" ++ v.URL ++ "\r\n" else "") ++
    "END:VCARD\r\n"

/-- `templates.uriEncode`: six sequential single-character
`strings.ReplaceAll` passes (`%` first). -/
def uriEncode (s : String) : String :=
  let s1 := Go.goReplaceAllChar s '%' "%25"
  let s2 := Go.goReplaceAllChar s1 ' ' "%20"
  let s3 := Go.goReplaceAllChar s2 '&' "%26"
  let s4 := Go.goReplaceAllChar s3 '=' "%3D"
  let s5 := Go.goReplaceAllChar s4 '#' "%23"
  Go.goReplaceAllChar s5 '\n' "%0A"

/-- `templates.EmailData`. -/
structure EmailData where
  Address : String
  Subject : String
  Body : String
deriving DecidableEq, Repr

/-- `EmailData.Encode`: `mailto:` URI with optional
`?subject=...&body=...` query. -/
def EmailData.Encode (e : EmailData) : String :=
  let params : List String :=
    (if e.Subject ≠ "" then ["subject=" ++ uriEncode e.Subject] else []) ++
    (if e.Body ≠ "" then ["body=" ++ uriEncode e.Body] else [])
  "mailto:" ++ e.Address ++
    (if params ≠ [] then "?" ++ String.intercalate "&" params else "")

/-- `templates.SMSData`. -/
structure SMSData where
  Phone : String
  Message : String
deriving DecidableEq, Repr

/-- `SMSData.Encode`: `smsto:<phone>:<message>`, message segment omitted
when empty. -/
def SMSData.Encode (s : SMSData) : String :=
  if s.Message ≠ "" then "smsto:" ++ s.Phone ++ ":" ++ s.Message
  else "smsto:" ++ s.Phone

end Templates

namespace Generator

/-- Concatenation of a list of strings (the successive
`strings.Builder.WriteString` appends). -/
def strJoin : List String → String
  | [] => ""
  | s :: rest => s ++ strJoin rest

/-- `generator.boolToInt`. -/
def boolToInt (b : Bool) : Nat :=
  if b then 1 else 0

/-- `generator.qrANSICodes`, indexed `[topIdx][bottomIdx]`; in the program
the indices are always 0 or 1. -/
def qrANSICodes (topIdx bottomIdx : Nat) : String :=
  match topIdx, bottomIdx with
  | 0, 0 => "\x1b[97;107m▀"
  | 0, 1 => "\x1b[97;40m▀"
  | 1, 0 => "\x1b[30;107m▀"
  | 1, 1 => "\x1b[30;40m▀"
  | _, _ => ""

/-- `generator.ansiReset`. -/
def ansiReset : String := "\x1b[0m"

/-- The inner `x` loop of `renderBitmapToTerminal`: one output line for
top row `rowTop` and (possibly absent) bottom row `rowBottom`; a missing
bottom row means `bottomDark = false`. -/
def renderLine (rowTop : List Bool) (rowBottom : Option (List Bool)) (cols : Nat) : String :=
  strJoin ((List.range cols).map (fun x =>
    let topDark := rowTop.getD x false
    let bottomDark := (rowBottom.getD []).getD x false
    qrANSICodes (boolToInt topDark) (boolToInt bottomDark)))

/-- The outer `y += 2` loop of `renderBitmapToTerminal`: rows are consumed
two at a time, each pair (or final single row) emitting one line ended by
the ANSI reset and a newline. -/
def renderRows : List (List Bool) → Nat → String
  | [], _ => ""
  | [r1], cols => renderLine r1 none cols ++ ansiReset ++ "\n"
  | r1 :: r2 :: rest, cols =>
    renderLine r1 (some r2) cols ++ ansiReset ++ "\n" ++ renderRows rest cols

/-- `generator.renderBitmapToTerminal`: empty bitmap renders to `""`;
otherwise `cols` is the length of the first row. -/
def renderBitmapToTerminal (bitmap : List (List Bool)) : String :=
  match bitmap with
  | [] => ""
  | r0 :: _ => renderRows bitmap r0.length

/-- Module at row `y`, column `x`; light (`false`) outside the bitmap. -/
def bitmapAt (bitmap : List (List Bool)) (y x : Nat) : Bool :=
  (bitmap.getD y []).getD x false

/-- Modelled from the spec: the glyph covering rows `y`, `y + 1` at column
`x`, taken from the 4-entry ANSI table indexed by the two module values. -/
def glyphSpec (bitmap : List (List Bool)) (y x : Nat) : String :=
  qrANSICodes (boolToInt (bitmapAt bitmap y x)) (boolToInt (bitmapAt bitmap (y + 1) x))

/-- Modelled from the spec: output line `i` — `cols` glyphs for rows `2*i`
and `2*i + 1`, ended by the ANSI reset and a newline. -/
def lineSpec (bitmap : List (List Bool)) (cols i : Nat) : String :=
  strJoin ((List.range cols).map (glyphSpec bitmap (2 * i))) ++ ansiReset ++ "\n"

/-- Modelled from the spec: `⌈rows/2⌉` output lines of `cols` glyphs. -/
def renderSpec (bitmap : List (List Bool)) (cols : Nat) : String :=
  strJoin ((List.range ((bitmap.length + 1) / 2)).map (lineSpec bitmap cols))

end Generator

namespace FilePicker

/-- A single `os.DirEntry` result: name and directory flag. -/
structure DirEntry where
  name : String
  isDir : Bool
deriving DecidableEq, Repr

instance : Inhabited DirEntry := ⟨⟨"", false⟩⟩

/-- `strings.HasPrefix(name, ".")`. -/
def startsWithDot (s : String) : Bool :=
  match s.toList with
  | '.' :: _ => true
  | _ => false

/-- Name order used by the two `sort.Slice` calls
(`entries[i].name < entries[j].name`). -/
def nameLe (a b : DirEntry) : Prop :=
  a.name ≤ b.name

instance : DecidableRel nameLe := fun a b => by
  unfold nameLe
  infer_instance

instance : IsTotal DirEntry nameLe := ⟨fun a b => le_total a.name b.name⟩

instance : IsTrans DirEntry nameLe := ⟨fun _ _ _ => le_trans⟩

/-- `sort.Slice` by name: for the duplicate-free name lists a directory can
produce, any comparison sort yields the unique sorted permutation;
insertion sort is the model. -/
def sortByName (l : List DirEntry) : List DirEntry :=
  l.insertionSort nameLe

/-- `FilePicker.loadEntries` after a successful `os.ReadDir`: parent
pseudo-entry unless at the filesystem root, then the non-hidden
directories sorted by name, then the non-hidden files sorted by name. -/
def loadEntriesList (isRoot : Bool) (dirEntries : List DirEntry) : List DirEntry :=
  let parent : List DirEntry := if isRoot then [] else [⟨"..", true⟩]
  let kept := dirEntries.filter (fun e => !startsWithDot e.name)
  let dirs := kept.filter (fun e => e.isDir)
  let files := kept.filter (fun e => !e.isDir)
  parent ++ sortByName dirs ++ sortByName files

/-- Absolute directory paths as component lists; `[]` is the filesystem
root `/` (`isRootDir` on Unix), `filepath.Dir` is `dropLast` and
`filepath.Join dir name` is `dir ++ [name]`. -/
abbrev DirPath := List String

/-- The filesystem seen by `os.ReadDir`: `none` models a read error. -/
abbrev FileSystem := DirPath → Option (List DirEntry)

/-- The `FilePicker` state.  The `textinput` internals of the filename
input are a library boundary; only its entered value matters and is kept
as `nameVal` (editing keystrokes are not modelled — no claim depends on
typed text). -/
structure FPState where
  dir : DirPath
  entries : List DirEntry
  cursor : Int
  offset : Int
  maxVisible : Int
  err : Bool
  nameMode : Bool
  nameVal : String
  selectedPath : DirPath
  confirmed : Bool
deriving DecidableEq, Repr

/-- `FilePicker.loadEntries`: on read error keep `cursor`/`offset` and
clear the listing; on success rebuild the listing and reset them. -/
def loadEntriesFP (fs : FileSystem) (st : FPState) : FPState :=
  match fs st.dir with
  | none => { st with err := true, entries := [] }
  | some des =>
    { st with
        err := false
        entries := loadEntriesList (st.dir = []) des
        cursor := 0
        offset := 0 }

/-- `FilePicker.navigateTo` (`filepath.Abs` is the identity on the absolute
paths of the model). -/
def navigateTo (fs : FileSystem) (st : FPState) (dir : DirPath) : FPState :=
  loadEntriesFP fs { st with dir := dir, nameMode := false }

/-- `FilePicker.updateBrowseMode` (the Go locals `c`, `entry`, `newDir`,
`parent` are inlined). -/
def updateBrowseMode (fs : FileSystem) (homeDir : Option DirPath)
    (st : FPState) (key : String) : FPState :=
  if key = "up" ∨ key = "k" then
    if st.cursor > 0 then
      { st with
          cursor := st.cursor - 1
          offset := if st.cursor - 1 < st.offset then st.cursor - 1 else st.offset }
    else st
  else if key = "down" ∨ key = "j" then
    if st.cursor < st.entries.length - 1 then
      { st with
          cursor := st.cursor + 1
          offset :=
            if st.cursor + 1 ≥ st.offset + st.maxVisible then
              st.cursor + 1 - st.maxVisible + 1
            else st.offset }
    else st
  else if key = "enter" then
    if st.entries.length = 0 then st
    else
      if (st.entries.getD st.cursor.toNat default).isDir then
        navigateTo fs st
          (if (st.entries.getD st.cursor.toNat default).name = ".." then st.dir.dropLast
           else st.dir ++ [(st.entries.getD st.cursor.toNat default).name])
      else
        { st with
            selectedPath := st.dir ++ [(st.entries.getD st.cursor.toNat default).name]
            confirmed := true }
  else if key = "n" then
    { st with nameMode := true, nameVal := "" }
  else if key = "~" then
    match homeDir with
    | some h => navigateTo fs st h
    | none => st
  else if key = "backspace" ∨ key = "delete" then
    if st.dir.dropLast ≠ st.dir then navigateTo fs st st.dir.dropLast else st
  else st

/-- `FilePicker.updateNameMode` (text-editing keys are a `textinput`
boundary and leave the tracked state unchanged). -/
def updateNameMode (st : FPState) (key : String) : FPState :=
  if key = "enter" then
    if Go.goTrimSpace st.nameVal = "" then st
    else
      { st with
          selectedPath := st.dir ++ [Go.goTrimSpace st.nameVal]
          confirmed := true }
  else if key = "esc" then { st with nameMode := false }
  else st

/-- `FilePicker.Update`: route by mode. -/
def updateFP (fs : FileSystem) (homeDir : Option DirPath)
    (st : FPState) (key : String) : FPState :=
  if st.nameMode then updateNameMode st key
  else updateBrowseMode fs homeDir st key

/-- `NewFilePicker` at a given start directory (`os.Getwd` and the home
fallback are a process boundary): fresh state with `maxVisible = 12`, then
an initial `loadEntries`. -/
def newFilePicker (fs : FileSystem) (startDir : DirPath) : FPState :=
  loadEntriesFP fs
    { dir := startDir, entries := [], cursor := 0, offset := 0, maxVisible := 12,
      err := false, nameMode := false, nameVal := "", selectedPath := [],
      confirmed := false }

/-- Folding a key sequence through `Update`. -/
def runKeys (fs : FileSystem) (homeDir : Option DirPath)
    (st : FPState) (keys : List String) : FPState :=
  keys.foldl (updateFP fs homeDir) st

/-- The cursor/scroll invariant maintained by the file picker: the cursor
is nonnegative, within the entry list when the list is non-empty, and
inside the visible window; after a successful load of an empty directory
the cursor and offset are zero (after a failed load — `err` set — they
keep their previous, still window-bounded, values). -/
def cursorInv (st : FPState) : Prop :=
  st.maxVisible = 12 ∧
  0 ≤ st.cursor ∧
  0 ≤ st.offset ∧
  (st.entries ≠ [] → st.cursor < (st.entries.length : Int)) ∧
  st.offset ≤ st.cursor ∧
  st.cursor < st.offset + st.maxVisible ∧
  (st.entries = [] ∧ st.err = false → st.cursor = 0 ∧ st.offset = 0)

/-- A two-directory filesystem in which `/a` is readable with a single
subdirectory `sub`, and `/a/sub` (like everything else) is unreadable. -/
def fsUnreadableSub : FileSystem := fun d =>
  if d = ["a"] then some [⟨"sub", true⟩] else none

end FilePicker

namespace UI

open Templates

/-- `ui.Step` (`int` constants via `iota`). -/
inductive Step where
  | contentType
  | url
  | template
  | format
  | color
  | bgColor
  | size
  | output
  | confirm
  | complete
deriving DecidableEq, Repr

/-- The numeric value of each `Step` constant, for the ordered comparisons
in the global key handler. -/
def Step.idx : Step → Nat
  | .contentType => 0
  | .url => 1
  | .template => 2
  | .format => 3
  | .color => 4
  | .bgColor => 5
  | .size => 6
  | .output => 7
  | .confirm => 8
  | .complete => 9

/-- `ui.TemplateWizard` state.  The `bubbles/textinput` fields are a
library boundary: only each input's entered value is tracked; keys
forwarded to a focused text input (`updateCurrentInput` — pure text
editing, which ignores enter and the navigation keys) leave the tracked
values unchanged. -/
structure TemplateWizard where
  contentType : ContentType
  wifiSSID : String
  wifiPassword : String
  wifiEncIndex : Nat
  wifiHidden : Bool
  vcardFirstName : String
  vcardLastName : String
  vcardPhone : String
  vcardEmail : String
  vcardOrg : String
  vcardTitle : String
  vcardURL : String
  emailAddress : String
  emailSubject : String
  emailBody : String
  smsPhone : String
  smsMessage : String
  focusIndex : Nat
  confirmed : Bool
  result : String
deriving DecidableEq, Repr

/-- `NewTemplateWizard`: fresh empty fields, first field focused. -/
def newTemplateWizard (ct : ContentType) : TemplateWizard :=
  { contentType := ct, wifiSSID := "", wifiPassword := "", wifiEncIndex := 0,
    wifiHidden := false, vcardFirstName := "", vcardLastName := "",
    vcardPhone := "", vcardEmail := "", vcardOrg := "", vcardTitle := "",
    vcardURL := "", emailAddress := "", emailSubject := "", emailBody := "",
    smsPhone := "", smsMessage := "", focusIndex := 0, confirmed := false,
    result := "" }

/-- `TemplateWizard.fieldCount`. -/
def fieldCount (tw : TemplateWizard) : Nat :=
  match tw.contentType with
  | .wifi => 4
  | .vcard => 7
  | .email => 3
  | .sms => 2
  | _ => 0

/-- `TemplateWizard.isToggleField`. -/
def isToggleField (tw : TemplateWizard) : Bool :=
  match tw.contentType with
  | .wifi => tw.focusIndex == 2 || tw.focusIndex == 3
  | _ => false

/-- `TemplateWizard.handleToggle`. -/
def handleToggle (tw : TemplateWizard) (key : String) : TemplateWizard :=
  if tw.contentType = .wifi then
    if tw.focusIndex = 2 then
      if key = "left" then
        if tw.wifiEncIndex > 0 then { tw with wifiEncIndex := tw.wifiEncIndex - 1 }
        else tw
      else if key = "right" then
        if tw.wifiEncIndex < 2 then { tw with wifiEncIndex := tw.wifiEncIndex + 1 }
        else tw
      else if key = " " then { tw with wifiEncIndex := (tw.wifiEncIndex + 1) % 3 }
      else tw
    else if tw.focusIndex = 3 then { tw with wifiHidden := !tw.wifiHidden }
    else tw
  else tw

/-- `TemplateWizard.tryEncode`: on validation success, `true` and the
state with `result` written; on failure, `false` and the state untouched.
In the program the encryption index is always 0–2, so the `getD` default
is never used. -/
def tryEncode (tw : TemplateWizard) : Bool × TemplateWizard :=
  match tw.contentType with
  | .wifi =>
    if Go.goTrimSpace tw.wifiSSID = "" then (false, tw)
    else
      (true, { tw with result :=
        (Templates.WiFiData.mk (Go.goTrimSpace tw.wifiSSID) tw.wifiPassword
          (Templates.wiFiEncryptionTypes.getD tw.wifiEncIndex "")
          tw.wifiHidden).Encode })
  | .vcard =>
    if Go.goTrimSpace tw.vcardFirstName = "" ∧ Go.goTrimSpace tw.vcardLastName = "" then
      (false, tw)
    else
      (true, { tw with result :=
        (Templates.VCardData.mk (Go.goTrimSpace tw.vcardFirstName)
          (Go.goTrimSpace tw.vcardLastName) (Go.goTrimSpace tw.vcardPhone)
          (Go.goTrimSpace tw.vcardEmail) (Go.goTrimSpace tw.vcardOrg)
          (Go.goTrimSpace tw.vcardTitle) (Go.goTrimSpace tw.vcardURL)).Encode })
  | .email =>
    if Go.goTrimSpace tw.emailAddress = "" then (false, tw)
    else
      (true, { tw with result :=
        (Templates.EmailData.mk (Go.goTrimSpace tw.emailAddress)
          (Go.goTrimSpace tw.emailSubject) (Go.goTrimSpace tw.emailBody)).Encode })
  | .sms =>
    if Go.goTrimSpace tw.smsPhone = "" then (false, tw)
    else
      (true, { tw with result :=
        (Templates.SMSData.mk (Go.goTrimSpace tw.smsPhone)
          (Go.goTrimSpace tw.smsMessage)).Encode })
  | _ => (false, tw)

/-- `TemplateWizard.Update`: field navigation, toggles, and
confirm-on-enter.  A key that reaches the focused text input
(`updateCurrentInput`) is a boundary and leaves the tracked state
unchanged. -/
def twUpdate (tw : TemplateWizard) (key : String) : TemplateWizard :=
  if key = "tab" ∨ key = "down" then
    if tw.focusIndex < fieldCount tw - 1 then { tw with focusIndex := tw.focusIndex + 1 }
    else tw
  else if key = "shift+tab" ∨ key = "up" then
    if tw.focusIndex > 0 then { tw with focusIndex := tw.focusIndex - 1 }
    else tw
  else if key = "enter" then
    if (tryEncode tw).1 then { (tryEncode tw).2 with confirmed := true }
    else tw
  else if key = "left" ∨ key = "right" ∨ key = " " then
    if isToggleField tw then handleToggle tw key else tw
  else tw

/-- The wizard `Model`.  Text inputs are kept as their entered values
(`urlVal`, `sizeVal`, `colorVal`, `bgColorVal`, `outputVal`); the file
picker's full state lives in the separate `FilePicker` model, with only
the flags the key routing consults (`fileBrowserActive`, `fpNameMode`)
tracked here. -/
structure UIModel where
  step : Step
  contentTypeIdx : Nat
  formatIndex : Nat
  colorIndex : Int
  bgColorIndex : Int
  fileBrowserActive : Bool
  fpNameMode : Bool
  size : Int
  err : Option String
  content : String
  format : String
  foreground : Config.RGBA
  background : Config.RGBA
  urlVal : String
  sizeVal : String
  colorVal : String
  bgColorVal : String
  outputVal : String
  tw : Option TemplateWizard
  quitting : Bool
deriving DecidableEq, Repr

/-- `m.contentTypes[idx].Type`: the selected content type.  In the program
the index is always within `availableTypes` (Go would panic otherwise);
`getD` supplies an unreachable default. -/
def ctAt (idx : Nat) : ContentType :=
  Templates.availableTypes.getD idx .url

/-- `Model.previousStep`. -/
def previousStep (m : UIModel) : Step :=
  match m.step with
  | .url => .contentType
  | .template => .contentType
  | .format =>
    if ctAt m.contentTypeIdx = .url ∨ ctAt m.contentTypeIdx = .text then .url
    else .template
  | .color => .format
  | .bgColor => .color
  | .size => .bgColor
  | .output => .size
  | .confirm => .output
  | _ => m.step

/-- `Model.handleContentTypeStep`. -/
def handleContentTypeStepKey (m : UIModel) (key : String) : UIModel :=
  if key = "up" ∨ key = "k" then
    if m.contentTypeIdx > 0 then { m with contentTypeIdx := m.contentTypeIdx - 1 }
    else m
  else if key = "down" ∨ key = "j" then
    if m.contentTypeIdx < Templates.availableTypes.length - 1 then
      { m with contentTypeIdx := m.contentTypeIdx + 1 }
    else m
  else if key = "enter" ∨ key = " " then
    if ctAt m.contentTypeIdx = .url ∨ ctAt m.contentTypeIdx = .text then
      { m with err := none, step := .url }
    else
      { m with
          err := none
          step := .template
          tw := some (newTemplateWizard (ctAt m.contentTypeIdx)) }
  else m

/-- `Model.handleURLStep` (other keys go to the text input: boundary). -/
def handleURLStepKey (m : UIModel) (key : String) : UIModel :=
  if key = "enter" then
    if Go.goTrimSpace m.urlVal = "" then
      { m with err := some "please enter a URL or text to encode" }
    else
      { m with content := Go.goTrimSpace m.urlVal, err := none, step := .format }
  else m

/-- `Model.handleTemplateStep`: forward to the template wizard, then poll
its confirmed flag. -/
def handleTemplateStepKey (m : UIModel) (key : String) : UIModel :=
  match m.tw with
  | none => m
  | some tw =>
    if (twUpdate tw key).confirmed then
      { m with
          tw := some (twUpdate tw key)
          content := (twUpdate tw key).result
          step := .format
          err := none }
    else { m with tw := some (twUpdate tw key) }

/-- `Model.handleFormatStep`. -/
def handleFormatStepKey (m : UIModel) (key : String) : UIModel :=
  if key = "left" ∨ key = "h" then
    if m.formatIndex > 0 then { m with formatIndex := m.formatIndex - 1 } else m
  else if key = "right" ∨ key = "l" then
    if m.formatIndex < 1 then { m with formatIndex := m.formatIndex + 1 } else m
  else if key = "enter" ∨ key = " " then
    { m with
        format := if m.formatIndex = 0 then Config.FormatPNG else Config.FormatSVG
        err := none
        step := .color }
  else if key = "1" then { m with formatIndex := 0, format := Config.FormatPNG }
  else if key = "2" then { m with formatIndex := 1, format := Config.FormatSVG }
  else m

/-- `Model.handleColorStep`. -/
def handleColorStepKey (m : UIModel) (key : String) : UIModel :=
  if m.colorIndex = -1 then
    if key = "enter" then
      if Go.goTrimSpace m.colorVal = "" then { m with colorIndex := 0 }
      else
        match Config.ParseHexColor (Go.strBytes (Go.goTrimSpace m.colorVal)) with
        | none =>
          { m with err := some ("invalid hex color: " ++ Go.goTrimSpace m.colorVal) }
        | some c => { m with foreground := c, err := none, step := .bgColor }
    else if key = "esc" then { m with colorIndex := 0 }
    else m
  else
    if key = "up" ∨ key = "k" then
      if m.colorIndex > 0 then { m with colorIndex := m.colorIndex - 1 } else m
    else if key = "down" ∨ key = "j" then
      if m.colorIndex < (Config.GetPredefinedColorNames.length : Int) - 1 then
        { m with colorIndex := m.colorIndex + 1 }
      else m
    else if key = "c" then { m with colorIndex := -1 }
    else if key = "enter" ∨ key = " " then
      { m with
          foreground :=
            Config.PredefinedColors
              (Config.GetPredefinedColorNames.getD m.colorIndex.toNat "")
          err := none
          step := .bgColor }
    else m

/-- `Model.handleBgColorStep`. -/
def handleBgColorStepKey (m : UIModel) (key : String) : UIModel :=
  if m.bgColorIndex = -1 then
    if key = "enter" then
      if Go.goTrimSpace m.bgColorVal = "" then { m with bgColorIndex := 0 }
      else
        match Config.ParseHexColor (Go.strBytes (Go.goTrimSpace m.bgColorVal)) with
        | none =>
          { m with err := some ("invalid hex color: " ++ Go.goTrimSpace m.bgColorVal) }
        | some c => { m with background := c, err := none, step := .size }
    else if key = "esc" then { m with bgColorIndex := 0 }
    else m
  else
    if key = "up" ∨ key = "k" then
      if m.bgColorIndex > 0 then { m with bgColorIndex := m.bgColorIndex - 1 } else m
    else if key = "down" ∨ key = "j" then
      if m.bgColorIndex < (Config.GetPredefinedColorNames.length : Int) - 1 then
        { m with bgColorIndex := m.bgColorIndex + 1 }
      else m
    else if key = "c" then { m with bgColorIndex := -1 }
    else if key = "enter" ∨ key = " " then
      { m with
          background :=
            Config.PredefinedColors
              (Config.GetPredefinedColorNames.getD m.bgColorIndex.toNat "")
          err := none
          step := .size }
    else m

/-- `Model.handleSizeStep`: enter validates the trimmed input (empty →
default 256, else `strconv.Atoi` then the `[64, 4096]` range); other keys
go to the text input (boundary). -/
def handleSizeStepKey (m : UIModel) (key : String) : UIModel :=
  if key = "enter" then
    if Go.goTrimSpace m.sizeVal = "" then
      { m with size := 256, err := none, step := .output }
    else
      match Go.goAtoi (Go.goTrimSpace m.sizeVal) with
      | none => { m with err := some "size must be a number between 64 and 4096" }
      | some n =>
        if n < 64 ∨ n > 4096 then
          { m with err := some "size must be a number between 64 and 4096" }
        else { m with size := n, err := none, step := .output }
  else m

/-- `Model.handleOutputFileBrowser`, for the keys the routing handles
itself; every other key is forwarded to the file picker (modelled
separately in `FilePicker`) whose confirmed-selection polling is a
boundary here. -/
def handleOutputFileBrowserKey (m : UIModel) (key : String) : UIModel :=
  if key = "tab" then { m with fileBrowserActive := false, fpNameMode := false }
  else if key = "esc" then
    if m.fpNameMode then { m with fpNameMode := false }
    else { m with fileBrowserActive := false, fpNameMode := false }
  else m

/-- `Model.handleOutputStep`.  The enter branch resolves `~`/relative
paths against `os.UserHomeDir`/`os.Getwd` and calls
`config.SetOutputPath` (modelled in `Config`); that filesystem/process
boundary is outside this key-routing model and no claim depends on it. -/
def handleOutputStepKey (m : UIModel) (key : String) : UIModel :=
  if m.fileBrowserActive then handleOutputFileBrowserKey m key
  else if key = "tab" then { m with fileBrowserActive := true }
  else m

/-- `Model.handleConfirmStep`.  The enter/`y` branch invokes the
`Generator` (file I/O boundary, modelled separately); only the pure `n`
branch is tracked. -/
def handleConfirmStepKey (m : UIModel) (key : String) : UIModel :=
  if key = "n" ∨ key = "N" then
    { m with step := .contentType, fileBrowserActive := false }
  else m

/-- `Model.handleCompleteStep`.  The `r` branch rebuilds a fresh model via
`New()` (whose defaults read `os.UserHomeDir`: process boundary); only the
quit keys are tracked. -/
def handleCompleteStepKey (m : UIModel) (key : String) : UIModel :=
  if key = "enter" ∨ key = "q" ∨ key = " " then { m with quitting := true }
  else m

/-- The per-step dispatch at the end of `Model.Update`. -/
def dispatch (m : UIModel) (key : String) : UIModel :=
  match m.step with
  | .contentType => handleContentTypeStepKey m key
  | .url => handleURLStepKey m key
  | .template => handleTemplateStepKey m key
  | .format => handleFormatStepKey m key
  | .color => handleColorStepKey m key
  | .bgColor => handleBgColorStepKey m key
  | .size => handleSizeStepKey m key
  | .output => handleOutputStepKey m key
  | .confirm => handleConfirmStepKey m key
  | .complete => handleCompleteStepKey m key

/-- `Model.Update` on a key message: the global handler (quit keys and
esc back-navigation, which yields to the custom-color, file-browser
sub-modes) followed by the per-step dispatch. -/
def updateKey (m : UIModel) (key : String) : UIModel :=
  if key = "ctrl+c" ∨ key = "q" then
    if m.step = .complete then { m with quitting := true }
    else if key = "ctrl+c" then { m with quitting := true }
    else dispatch m key
  else if key = "esc" then
    if Step.idx .contentType < Step.idx m.step ∧ Step.idx m.step < Step.idx .complete then
      if (m.step = .color ∧ m.colorIndex = -1) ∨
          (m.step = .bgColor ∧ m.bgColorIndex = -1) ∨
          (m.step = .output ∧ m.fileBrowserActive = true) then
        dispatch m key
      else { m with step := previousStep m, err := none }
    else dispatch m key
  else dispatch m key

/-- A concrete model state used by the witnesses and counterexamples. -/
def sampleModel : UIModel :=
  { step := .size, contentTypeIdx := 0, formatIndex := 0, colorIndex := 0,
    bgColorIndex := 0, fileBrowserActive := false, fpNameMode := false,
    size := 256, err := none, content := "", format := "png",
    foreground := ⟨0, 0, 0, 255⟩, background := ⟨255, 255, 255, 255⟩,
    urlVal := "", sizeVal := "", colorVal := "", bgColorVal := "",
    outputVal := "", tw := none, quitting := false }

/-- A model sitting on the Template step with a fresh WiFi sub-form. -/
def wifiTemplateModel : UIModel :=
  { sampleModel with step := .template, tw := some (newTemplateWizard .wifi) }

/-- A model on the Foreground-Color step in custom-color entry. -/
def customColorModel : UIModel :=
  { sampleModel with step := .color, colorIndex := -1 }

/-- A model on the Format step (content-type cursor on URL). -/
def formatStepModel : UIModel :=
  { sampleModel with step := .format }

end UI

section ConfigLemmas

open Config

lemma hexValByte_lt_16 {n : Nat} (h : isHexDigitByte n = true) : hexValByte n < 16 := by
  simp only [isHexDigitByte, Bool.or_eq_true, Bool.and_eq_true, decide_eq_true_eq] at h
  unfold hexValByte
  split_ifs <;> omega

lemma upperHexDigit_hexValByte {n : Nat} (h : isHexDigitByte n = true) :
    upperHexDigit (hexValByte n) = upperByte n := by
  simp only [isHexDigitByte, Bool.or_eq_true, Bool.and_eq_true, decide_eq_true_eq] at h
  unfold hexValByte upperHexDigit upperByte
  split_ifs <;> omega

lemma parseUintHex8_pair {a b : Nat} (ha : isHexDigitByte a = true)
    (hb : isHexDigitByte b = true) :
    parseUintHex8 [a, b] = some (16 * hexValByte a + hexValByte b) := by
  have h1 := hexValByte_lt_16 ha
  have h2 := hexValByte_lt_16 hb
  simp [parseUintHex8, ha, hb]
  omega

lemma parseUintHex8_pair_none {a b : Nat}
    (h : ¬(isHexDigitByte a = true ∧ isHexDigitByte b = true)) :
    parseUintHex8 [a, b] = none := by
  cases ha : isHexDigitByte a <;> cases hb : isHexDigitByte b <;>
    simp_all [parseUintHex8]

lemma formatByteHex_pair {x y : Nat} (_hx : x < 16) (hy : y < 16) :
    formatByteHex (16 * x + y) = [upperHexDigit x, upperHexDigit y] := by
  have hdiv : (16 * x + y) / 16 = x := by omega
  have hmod : (16 * x + y) % 16 = y := by omega
  simp [formatByteHex, hdiv, hmod]

lemma goExtAux_suffix (l : List Char) : ∀ acc, goExtAux l acc <:+ (l.reverse ++ acc) := by
  induction l with
  | nil => intro acc; simp [goExtAux]
  | cons c rest ih =>
    intro acc
    unfold goExtAux
    split_ifs with h1 h2
    · exact List.nil_suffix
    · subst h2
      simp [List.append_assoc]
    · simpa [List.append_assoc] using ih (c :: acc)

lemma goExt_suffix (path : List Char) : goExt path <:+ path := by
  simpa using goExtAux_suffix path.reverse []

lemma parseHexColor_of_six {a b c d e f : Nat} {s : GoStr}
    (hl : trimHashOnce s = [a, b, c, d, e, f])
    (ha : isHexDigitByte a = true) (hb : isHexDigitByte b = true)
    (hc : isHexDigitByte c = true) (hd : isHexDigitByte d = true)
    (he : isHexDigitByte e = true) (hf : isHexDigitByte f = true) :
    ParseHexColor s =
      some ⟨16 * hexValByte a + hexValByte b, 16 * hexValByte c + hexValByte d,
            16 * hexValByte e + hexValByte f, 255⟩ := by
  unfold ParseHexColor
  rw [hl]
  simp [parseUintHex8_pair ha hb, parseUintHex8_pair hc hd, parseUintHex8_pair he hf]

lemma parseHexColor_eq_match {a b c d e f : Nat} {s : GoStr}
    (hl : trimHashOnce s = [a, b, c, d, e, f]) :
    ParseHexColor s =
      (match parseUintHex8 [a, b], parseUintHex8 [c, d], parseUintHex8 [e, f] with
       | some r, some g, some bl => some (⟨r, g, bl, 255⟩ : RGBA)
       | _, _, _ => none) := by
  unfold ParseHexColor
  rw [hl]
  simp

end ConfigLemmas

/-- **C1..C10 claim theorems are collected below.**  C5: for every string
that is exactly 6 hex digits after stripping one optional leading `#`,
`ParseHexColor` succeeds and `ColorToHex` of the result is the normalized
form (`#` + the six digits uppercased); every other string is rejected. -/
theorem parseHexColor_roundtrip_spec (s : Config.GoStr) :
    (Config.hexValidInput s →
      ∃ c, Config.ParseHexColor s = some c ∧
        Config.ColorToHex c = Config.hexNormalizeSpec s) ∧
    (¬ Config.hexValidInput s → Config.ParseHexColor s = none) := by
  constructor
  · rintro ⟨hlen, hall⟩
    rcases hl : Config.trimHashOnce s with
        _ | ⟨a, _ | ⟨b, _ | ⟨c, _ | ⟨d, _ | ⟨e, _ | ⟨f, _ | ⟨g, rest⟩⟩⟩⟩⟩⟩⟩ <;>
      rw [hl] at hlen <;> simp at hlen
    rw [hl] at hall
    have ha := hall a (by simp)
    have hb := hall b (by simp)
    have hc := hall c (by simp)
    have hd := hall d (by simp)
    have he := hall e (by simp)
    have hf := hall f (by simp)
    refine ⟨_, parseHexColor_of_six hl ha hb hc hd he hf, ?_⟩
    simp [Config.ColorToHex, Config.hexNormalizeSpec, hl,
      formatByteHex_pair (hexValByte_lt_16 ha) (hexValByte_lt_16 hb),
      formatByteHex_pair (hexValByte_lt_16 hc) (hexValByte_lt_16 hd),
      formatByteHex_pair (hexValByte_lt_16 he) (hexValByte_lt_16 hf),
      upperHexDigit_hexValByte ha, upperHexDigit_hexValByte hb,
      upperHexDigit_hexValByte hc, upperHexDigit_hexValByte hd,
      upperHexDigit_hexValByte he, upperHexDigit_hexValByte hf]
  · intro hv
    by_cases hlen : (Config.trimHashOnce s).length = 6
    · have hbad : ¬ ∀ x ∈ Config.trimHashOnce s, Config.isHexDigitByte x = true :=
        fun hall => hv ⟨hlen, hall⟩
      push_neg at hbad
      obtain ⟨x, hx, hxbad⟩ := hbad
      rcases hl : Config.trimHashOnce s with
          _ | ⟨a, _ | ⟨b, _ | ⟨c, _ | ⟨d, _ | ⟨e, _ | ⟨f, _ | ⟨g, rest⟩⟩⟩⟩⟩⟩⟩ <;>
        rw [hl] at hlen <;> simp at hlen
      rw [parseHexColor_eq_match hl]
      rw [hl] at hx
      simp only [List.mem_cons, List.not_mem_nil, or_false] at hx
      rcases hx with rfl | rfl | rfl | rfl | rfl | rfl
      · rw [@parseUintHex8_pair_none x b (by tauto)]
      · rw [@parseUintHex8_pair_none a x (by tauto)]
      · rw [@parseUintHex8_pair_none x d (by tauto)]
        cases Config.parseUintHex8 [a, b] <;> rfl
      · rw [@parseUintHex8_pair_none c x (by tauto)]
        cases Config.parseUintHex8 [a, b] <;> rfl
      · rw [@parseUintHex8_pair_none x f (by tauto)]
        cases Config.parseUintHex8 [a, b] <;> cases Config.parseUintHex8 [c, d] <;> rfl
      · rw [@parseUintHex8_pair_none e x (by tauto)]
        cases Config.parseUintHex8 [a, b] <;> cases Config.parseUintHex8 [c, d] <;> rfl
    · unfold Config.ParseHexColor
      simp [hlen]

/-- Witness for C5: `"#aB12cD"` (bytes) round-trips to `"#AB12CD"`, and
`"xyz"` is rejected. -/
theorem parseHexColor_roundtrip_spec_witness :
    (∃ c, Config.ParseHexColor [35, 97, 66, 49, 50, 99, 68] = some c ∧
      Config.ColorToHex c = Config.hexNormalizeSpec [35, 97, 66, 49, 50, 99, 68]) ∧
    Config.ParseHexColor [120, 121, 122] = none :=
  ⟨(parseHexColor_roundtrip_spec [35, 97, 66, 49, 50, 99, 68]).1 (by decide),
   (parseHexColor_roundtrip_spec [120, 121, 122]).2 (by decide)⟩

/-- C6: `SetOutputPath` replaces any existing extension of the path by
`"." ++ format`, or appends one when the path has no extension; with format
`svg`, `"notes"` becomes `"notes.svg"` and `"notes.png"` becomes
`"notes.svg"`. -/
theorem setOutputPath_extension_spec :
    (∀ path format : List Char, ∃ base,
        path = base ++ Config.goExt path ∧
        Config.SetOutputPath format path = base ++ '.' :: format) ∧
    Config.SetOutputPath "svg".toList "notes".toList = "notes.svg".toList ∧
    Config.SetOutputPath "svg".toList "notes.png".toList = "notes.svg".toList := by
  refine ⟨?_, by decide, by decide⟩
  intro path format
  by_cases hExt : Config.goExt path = []
  · exact ⟨path, by simp [hExt], by simp [Config.SetOutputPath, hExt]⟩
  · obtain ⟨base, hbase⟩ := goExt_suffix path
    refine ⟨base, hbase.symm, ?_⟩
    have hplen : base.length + (Config.goExt path).length = path.length := by
      simpa [List.length_append] using congrArg List.length hbase
    have hlen : path.length - (Config.goExt path).length = base.length := by omega
    simp only [Config.SetOutputPath, Config.goTrimSuffixStr, if_neg hExt,
      if_pos (goExt_suffix path), hlen]
    rw [← hbase, List.take_left]

/-- C4: every `WiFiData` encodes to `WIFI:T:<enc>;S:<escaped ssid>;`,
then `P:<escaped password>;` except for the open (`nopass`) encryption,
then `H:true;` exactly when hidden, then a final `;`; in particular the
`My;Net`/`p@ss`/WPA/not-hidden example encodes to
`WIFI:T:WPA;S:My\;Net;P:p@ss;;`. -/
theorem wifiData_encode_spec (w : Templates.WiFiData) :
    w.Encode =
      "WIFI:T:" ++ w.Encryption ++ ";S:" ++ Templates.escapeWiFiField w.SSID ++ ";" ++
        (if w.Encryption = Templates.WiFiNone then ""
         else "P:" ++ Templates.escapeWiFiField w.Password ++ ";") ++
        (if w.Hidden then "H:true;" else "") ++ ";" ∧
    (Templates.WiFiData.mk "My;Net" "p@ss" Templates.WiFiWPA false).Encode =
      "WIFI:T:WPA;S:My\\;Net;P:p@ss;;" := by
  constructor
  · unfold Templates.WiFiData.Encode
    by_cases h : w.Encryption = Templates.WiFiNone <;> simp [h]
  · decide

section GeneratorLemmas

open Generator

lemma strJoin_cons (s : String) (l : List String) : strJoin (s :: l) = s ++ strJoin l :=
  rfl

lemma string_append_assoc (a b c : String) : a ++ b ++ c = a ++ (b ++ c) := by
  apply String.ext
  simp [String.data_append, List.append_assoc]

lemma lineSpec_shift (r1 r2 : List Bool) (rest : List (List Bool)) (cols i : Nat) :
    lineSpec (r1 :: r2 :: rest) cols (i + 1) = lineSpec rest cols i := by
  have h : glyphSpec (r1 :: r2 :: rest) (2 * (i + 1)) = glyphSpec rest (2 * i) := by
    funext x
    have e1 : 2 * (i + 1) = 2 * i + 2 := by ring
    have e2 : 2 * (i + 1) + 1 = 2 * i + 1 + 2 := by ring
    unfold glyphSpec
    rw [e1]
    rw [show 2 * i + 2 + 1 = 2 * i + 1 + 2 by ring]
    simp [bitmapAt]
  unfold lineSpec
  rw [h]

lemma lineSpec_zero_pair (r1 r2 : List Bool) (rest : List (List Bool)) (cols : Nat) :
    lineSpec (r1 :: r2 :: rest) cols 0 =
      renderLine r1 (some r2) cols ++ ansiReset ++ "\n" :=
  rfl

lemma lineSpec_zero_single (r1 : List Bool) (cols : Nat) :
    lineSpec [r1] cols 0 = renderLine r1 none cols ++ ansiReset ++ "\n" :=
  rfl

lemma renderRows_eq_spec :
    ∀ (bitmap : List (List Bool)) (cols : Nat),
      renderRows bitmap cols = renderSpec bitmap cols
  | [], _ => rfl
  | [r1], cols => by
    unfold renderRows renderSpec
    simp [strJoin, lineSpec_zero_single]
  | r1 :: r2 :: rest, cols => by
    unfold renderRows
    rw [renderRows_eq_spec rest cols]
    unfold renderSpec
    have hlen : ((r1 :: r2 :: rest).length + 1) / 2 = (rest.length + 1) / 2 + 1 := by
      simp only [List.length_cons]
      omega
    rw [hlen, List.range_succ_eq_map, List.map_cons, List.map_map, strJoin_cons]
    have hshift : lineSpec (r1 :: r2 :: rest) cols ∘ Nat.succ = lineSpec rest cols :=
      funext fun i => lineSpec_shift r1 r2 rest cols i
    rw [hshift, lineSpec_zero_pair]

end GeneratorLemmas

/-- C9: for a non-empty rectangular `r × c` bitmap, the terminal rendering
is exactly `⌈r/2⌉ = (r+1)/2` lines of `c` glyphs; the glyph at column `x`
of line `i` comes from the fixed 4-entry ANSI table indexed by the modules
at rows `2i` and `2i+1` (a row past the end counts as light), and every
line ends with the ANSI reset followed by a newline — i.e. the output
equals `renderSpec`. -/
theorem renderBitmapToTerminal_spec (bitmap : List (List Bool)) (cols : Nat)
    (hne : bitmap ≠ []) (hrect : ∀ row ∈ bitmap, row.length = cols) :
    Generator.renderBitmapToTerminal bitmap = Generator.renderSpec bitmap cols := by
  match bitmap, hne with
  | r0 :: rest, _ =>
    have h0 : r0.length = cols := hrect r0 (by simp)
    show Generator.renderRows (r0 :: rest) r0.length = _
    rw [h0, renderRows_eq_spec]

/-- Witness for C9 at a concrete 3×2 bitmap. -/
theorem renderBitmapToTerminal_spec_witness :
    Generator.renderBitmapToTerminal [[true, false], [false, true], [true, true]] =
      Generator.renderSpec [[true, false], [false, true], [true, true]] 2 :=
  renderBitmapToTerminal_spec [[true, false], [false, true], [true, true]] 2
    (by decide) (by decide)

section FilePickerLemmas

open FilePicker

lemma sortByName_perm (l : List DirEntry) : (sortByName l).Perm l :=
  List.perm_insertionSort nameLe l

lemma sortByName_strict (l : List DirEntry)
    (h : (l.map DirEntry.name).Nodup) :
    (sortByName l).Pairwise (fun a b => a.name < b.name) := by
  have hperm : (sortByName l).Perm l := sortByName_perm l
  have hs : (sortByName l).Pairwise nameLe := List.sorted_insertionSort nameLe l
  have hnd : ((sortByName l).map DirEntry.name).Nodup :=
    ((hperm.map DirEntry.name).nodup_iff).mpr h
  have hne : (sortByName l).Pairwise (fun a b => a.name ≠ b.name) :=
    List.pairwise_map.mp hnd
  exact (hs.and hne).imp (fun hab => lt_of_le_of_ne hab.1 hab.2)

lemma cursorInv_load (fs : FileSystem) (st : FPState) (h : cursorInv st) :
    cursorInv (loadEntriesFP fs st) := by
  obtain ⟨hmv, hc0, ho0, hlt, holec, hwin, hempty⟩ := h
  unfold loadEntriesFP
  cases hfs : fs st.dir with
  | none =>
    exact ⟨hmv, hc0, ho0, fun hne => absurd rfl hne, holec, hwin,
      fun hh => absurd hh.2 (by simp)⟩
  | some des =>
    refine ⟨hmv, le_refl 0, le_refl 0, ?_, le_refl 0, by dsimp only; omega, fun _ => ⟨rfl, rfl⟩⟩
    intro hne
    dsimp only at hne ⊢
    have : 0 < (loadEntriesList (decide (st.dir = [])) des).length := List.length_pos.mpr hne
    exact_mod_cast this

lemma cursorInv_navigateTo (fs : FileSystem) (st : FPState) (d : DirPath)
    (h : cursorInv st) : cursorInv (navigateTo fs st d) := by
  apply cursorInv_load
  exact h

set_option maxHeartbeats 2000000 in
lemma cursorInv_updateFP (fs : FileSystem) (homeDir : Option DirPath)
    (st : FPState) (key : String) (h : cursorInv st) :
    cursorInv (updateFP fs homeDir st key) := by
  obtain ⟨hmv, hc0, ho0, hlt, holec, hwin, hempty⟩ := h
  unfold updateFP updateNameMode updateBrowseMode
  cases homeDir <;> split_ifs <;>
    first
      | exact ⟨hmv, hc0, ho0, hlt, holec, hwin, hempty⟩
      | exact cursorInv_navigateTo fs _ _ ⟨hmv, hc0, ho0, hlt, holec, hwin, hempty⟩
      | (refine ⟨hmv, ?_, ?_, fun hne => ?_, ?_, ?_, fun hh => ?_⟩ <;>
          dsimp only at * <;>
          first
            | omega
            | (have hx := hlt hne; omega)
            | (have hx := hempty hh; omega)
            | (simp only [hh.1, List.length_nil] at *; omega))

lemma cursorInv_runKeys (fs : FileSystem) (homeDir : Option DirPath)
    (keys : List String) (st : FPState) (h : cursorInv st) :
    cursorInv (runKeys fs homeDir st keys) := by
  induction keys generalizing st with
  | nil => exact h
  | cons k ks ih => exact ih _ (cursorInv_updateFP fs homeDir st k h)

end FilePickerLemmas

/-- C7: a successful directory listing is the `..` parent pseudo-entry
(exactly when the directory is not a filesystem root), followed by the
non-hidden subdirectories in strictly ascending name order, followed by
the non-hidden files in strictly ascending name order; no directory or
file entry's name begins with `.` (the mandated parent pseudo-entry keeps
its literal name `..`). -/
theorem loadEntries_listing_spec (isRoot : Bool) (des : List FilePicker.DirEntry)
    (hnd : (des.map FilePicker.DirEntry.name).Nodup) :
    ∃ ds fls,
      FilePicker.loadEntriesList isRoot des =
        (if isRoot then [] else [⟨"..", true⟩]) ++ ds ++ fls ∧
      ds.Perm (des.filter (fun e => !FilePicker.startsWithDot e.name && e.isDir)) ∧
      fls.Perm (des.filter (fun e => !FilePicker.startsWithDot e.name && !e.isDir)) ∧
      ds.Pairwise (fun a b => a.name < b.name) ∧
      fls.Pairwise (fun a b => a.name < b.name) ∧
      ∀ e ∈ ds ++ fls, FilePicker.startsWithDot e.name = false := by
  classical
  set kept := des.filter (fun e => !FilePicker.startsWithDot e.name) with hkept
  set dirs := kept.filter (fun e => e.isDir) with hdirs
  set fils := kept.filter (fun e => !e.isDir) with hfils
  have hdirs2 : dirs = des.filter (fun e => !FilePicker.startsWithDot e.name && e.isDir) := by
    rw [hdirs, hkept, List.filter_filter]
    exact List.filter_congr (fun e _ => by rw [Bool.and_comm])
  have hfils2 : fils = des.filter (fun e => !FilePicker.startsWithDot e.name && !e.isDir) := by
    rw [hfils, hkept, List.filter_filter]
    exact List.filter_congr (fun e _ => by rw [Bool.and_comm])
  have hndd : (dirs.map FilePicker.DirEntry.name).Nodup := by
    rw [hdirs2]
    exact hnd.sublist ((List.filter_sublist des).map FilePicker.DirEntry.name)
  have hndf : (fils.map FilePicker.DirEntry.name).Nodup := by
    rw [hfils2]
    exact hnd.sublist ((List.filter_sublist des).map FilePicker.DirEntry.name)
  refine ⟨FilePicker.sortByName dirs, FilePicker.sortByName fils, rfl, ?_, ?_, ?_, ?_, ?_⟩
  · rw [← hdirs2]
    exact sortByName_perm dirs
  · rw [← hfils2]
    exact sortByName_perm fils
  · exact sortByName_strict dirs hndd
  · exact sortByName_strict fils hndf
  · intro e he
    rcases List.mem_append.mp he with he | he
    · have : e ∈ dirs := (sortByName_perm dirs).mem_iff.mp he
      rw [hdirs2] at this
      have := (List.mem_filter.mp this).2
      simp only [Bool.and_eq_true, Bool.not_eq_true'] at this
      exact this.1
    · have : e ∈ fils := (sortByName_perm fils).mem_iff.mp he
      rw [hfils2] at this
      have := (List.mem_filter.mp this).2
      simp only [Bool.and_eq_true, Bool.not_eq_true'] at this
      exact this.1

/-- Witness for C7 at a concrete listing of a non-root directory. -/
theorem loadEntries_listing_spec_witness :
    ∃ ds fls,
      FilePicker.loadEntriesList false
          [⟨"b.txt", false⟩, ⟨"zeta", true⟩, ⟨".git", true⟩, ⟨"alpha", true⟩, ⟨"a.txt", false⟩] =
        (if false then [] else [⟨"..", true⟩]) ++ ds ++ fls ∧
      ds.Perm ([⟨"b.txt", false⟩, ⟨"zeta", true⟩, ⟨".git", true⟩, ⟨"alpha", true⟩,
          ⟨"a.txt", false⟩].filter (fun e => !FilePicker.startsWithDot e.name && e.isDir)) ∧
      fls.Perm ([⟨"b.txt", false⟩, ⟨"zeta", true⟩, ⟨".git", true⟩, ⟨"alpha", true⟩,
          ⟨"a.txt", false⟩].filter (fun e => !FilePicker.startsWithDot e.name && !e.isDir)) ∧
      ds.Pairwise (fun a b => a.name < b.name) ∧
      fls.Pairwise (fun a b => a.name < b.name) ∧
      ∀ e ∈ ds ++ fls, FilePicker.startsWithDot e.name = false :=
  loadEntries_listing_spec false
    [⟨"b.txt", false⟩, ⟨"zeta", true⟩, ⟨".git", true⟩, ⟨"alpha", true⟩, ⟨"a.txt", false⟩]
    (by decide)

/-- Counterexample for C10 as stated: starting the picker in `/a`
(entries `..` and `sub`), pressing `down` then `enter` descends into the
unreadable `/a/sub`; the failed `os.ReadDir` clears the entry list but
`loadEntries` returns before resetting the cursor, so the picker reaches a
state with `entries = []` and `cursor = 1 ≠ 0`, refuting "cursor = 0 when
entries is empty". -/
theorem filePicker_cursor_empty_cex :
    (FilePicker.runKeys FilePicker.fsUnreadableSub none
        (FilePicker.newFilePicker FilePicker.fsUnreadableSub ["a"])
        ["down", "enter"]).entries = [] ∧
    (FilePicker.runKeys FilePicker.fsUnreadableSub none
        (FilePicker.newFilePicker FilePicker.fsUnreadableSub ["a"])
        ["down", "enter"]).cursor ≠ 0 := by
  decide

/-- C10 (amended): after any key sequence the cursor is nonnegative and
within the entry list whenever it is non-empty, and the scroll offset
keeps the cursor inside the visible window
(`offset ≤ cursor < offset + maxVisible`); the cursor and offset are zero
whenever the entry list is empty and the last directory read succeeded
(after a failed read — which also empties the list — they keep their
previous, still window-bounded, values). -/
theorem filePicker_cursor_window_inv (fs : FilePicker.FileSystem)
    (homeDir : Option FilePicker.DirPath) (startDir : FilePicker.DirPath)
    (keys : List String) :
    FilePicker.cursorInv
      (FilePicker.runKeys fs homeDir (FilePicker.newFilePicker fs startDir) keys) := by
  apply cursorInv_runKeys
  apply cursorInv_load
  exact ⟨rfl, le_refl 0, le_refl 0, fun hne => absurd rfl hne, le_refl 0,
    by dsimp only; omega, fun _ => ⟨rfl, rfl⟩⟩

section UILemmas

open UI

lemma updateKey_enter_size (m : UIModel) (h : m.step = .size) :
    updateKey m "enter" = handleSizeStepKey m "enter" := by
  unfold updateKey dispatch
  rw [h]
  simp

lemma updateKey_esc_format (m : UIModel) (h : m.step = .format) :
    updateKey m "esc" = { m with step := previousStep m, err := none } := by
  unfold updateKey
  rw [h]
  simp [Step.idx]

lemma updateKey_enter_template (m : UIModel) (h : m.step = .template) :
    updateKey m "enter" = handleTemplateStepKey m "enter" := by
  unfold updateKey dispatch
  rw [h]
  simp

end UILemmas

/-- C1: on the Size step, Enter with empty trimmed input sets size 256 and
advances to Output; with input parsing to an integer in `[64, 4096]` it
sets that size and advances; on parse failure or an out-of-range value it
records a step-local error, stays on the Size step and leaves the
configured size unchanged. -/
theorem sizeStep_enter_spec (m : UI.UIModel) (h : m.step = UI.Step.size) :
    (Go.goTrimSpace m.sizeVal = "" →
      (UI.updateKey m "enter").size = 256 ∧
      (UI.updateKey m "enter").step = UI.Step.output ∧
      (UI.updateKey m "enter").err = none) ∧
    (∀ n : Int, Go.goAtoi (Go.goTrimSpace m.sizeVal) = some n →
      64 ≤ n → n ≤ 4096 →
      (UI.updateKey m "enter").size = n ∧
      (UI.updateKey m "enter").step = UI.Step.output ∧
      (UI.updateKey m "enter").err = none) ∧
    ((Go.goAtoi (Go.goTrimSpace m.sizeVal) = none ∧ Go.goTrimSpace m.sizeVal ≠ "") ∨
        (∃ n, Go.goAtoi (Go.goTrimSpace m.sizeVal) = some n ∧ (n < 64 ∨ 4096 < n)) →
      (UI.updateKey m "enter").err ≠ none ∧
      (UI.updateKey m "enter").step = UI.Step.size ∧
      (UI.updateKey m "enter").size = m.size) := by
  have hu := updateKey_enter_size m h
  refine ⟨?_, ?_, ?_⟩
  · intro ht
    rw [hu]
    unfold UI.handleSizeStepKey
    rw [if_pos rfl, if_pos ht]
    exact ⟨rfl, rfl, rfl⟩
  · intro n hn h64 h4096
    have ht : Go.goTrimSpace m.sizeVal ≠ "" := by
      intro he
      rw [he] at hn
      simp [Go.goAtoi] at hn
    rw [hu]
    unfold UI.handleSizeStepKey
    rw [if_pos rfl, if_neg ht, hn]
    dsimp only
    rw [if_neg (by omega)]
    exact ⟨rfl, rfl, rfl⟩
  · intro hbad
    rw [hu]
    unfold UI.handleSizeStepKey
    rcases hbad with ⟨hn, ht⟩ | ⟨n, hn, hout⟩
    · rw [if_pos rfl, if_neg ht, hn]
      exact ⟨by simp, h, rfl⟩
    · have ht : Go.goTrimSpace m.sizeVal ≠ "" := by
        intro he
        rw [he] at hn
        simp [Go.goAtoi] at hn
      rw [if_pos rfl, if_neg ht, hn]
      dsimp only
      rw [if_pos (by omega)]
      exact ⟨by simp, h, rfl⟩

/-- Witness for C1 at three concrete Size-step models: empty input,
in-range input `"512"`, and out-of-range input `"9999"`. -/
theorem sizeStep_enter_spec_witness :
    ((UI.updateKey UI.sampleModel "enter").size = 256 ∧
      (UI.updateKey UI.sampleModel "enter").step = UI.Step.output ∧
      (UI.updateKey UI.sampleModel "enter").err = none) ∧
    ((UI.updateKey { UI.sampleModel with sizeVal := "512" } "enter").size = 512 ∧
      (UI.updateKey { UI.sampleModel with sizeVal := "512" } "enter").step =
        UI.Step.output ∧
      (UI.updateKey { UI.sampleModel with sizeVal := "512" } "enter").err = none) ∧
    ((UI.updateKey { UI.sampleModel with sizeVal := "9999" } "enter").err ≠ none ∧
      (UI.updateKey { UI.sampleModel with sizeVal := "9999" } "enter").step =
        UI.Step.size ∧
      (UI.updateKey { UI.sampleModel with sizeVal := "9999" } "enter").size =
        ({ UI.sampleModel with sizeVal := "9999" } : UI.UIModel).size) :=
  ⟨(sizeStep_enter_spec UI.sampleModel rfl).1 (by decide),
   (sizeStep_enter_spec { UI.sampleModel with sizeVal := "512" } rfl).2.1 512
     (by decide) (by decide) (by decide),
   (sizeStep_enter_spec { UI.sampleModel with sizeVal := "9999" } rfl).2.2
     (Or.inr ⟨9999, by decide, by decide⟩)⟩

/-- C2: on the Format step, Esc goes back to the URL step when the
selected content type is URL or Text, and back to the Template sub-form
step otherwise. -/
theorem formatStep_esc_spec (m : UI.UIModel) (h : m.step = UI.Step.format) :
    (UI.updateKey m "esc").step =
      if UI.ctAt m.contentTypeIdx = Templates.ContentType.url ∨
          UI.ctAt m.contentTypeIdx = Templates.ContentType.text then UI.Step.url
      else UI.Step.template := by
  rw [updateKey_esc_format m h]
  show UI.previousStep m = _
  unfold UI.previousStep
  rw [h]

/-- Witness for C2 at a concrete Format-step model. -/
theorem formatStep_esc_spec_witness :
    (UI.updateKey UI.formatStepModel "esc").step =
      if UI.ctAt UI.formatStepModel.contentTypeIdx = Templates.ContentType.url ∨
          UI.ctAt UI.formatStepModel.contentTypeIdx = Templates.ContentType.text then
        UI.Step.url
      else UI.Step.template :=
  formatStep_esc_spec UI.formatStepModel rfl

/-- Counterexample for C3 as stated: on the Template step a field is
always focused, yet Esc is not intercepted there — the global
back-navigation handler (which checks only the custom-color and
file-browser sub-modes) fires and moves the wizard from the Template step
back to the ContentType step, so the step does change. -/
theorem templateStep_esc_changes_step_cex :
    UI.wifiTemplateModel.step = UI.Step.template ∧
    (UI.updateKey UI.wifiTemplateModel "esc").step ≠ UI.wifiTemplateModel.step := by
  decide

/-- C3 (amended): Esc in the custom-color entry sub-modes (Color and
Background-Color steps) and in the active file browser on the Output step
is handled inside the sub-mode and the wizard step does not change; on the
Template step, however, field focus does not intercept Esc — the global
back-navigation handler moves the wizard to the ContentType step. -/
theorem subMode_esc_spec (m : UI.UIModel) :
    ((m.step = UI.Step.color ∧ m.colorIndex = -1) ∨
        (m.step = UI.Step.bgColor ∧ m.bgColorIndex = -1) ∨
        (m.step = UI.Step.output ∧ m.fileBrowserActive = true) →
      (UI.updateKey m "esc").step = m.step) ∧
    (m.step = UI.Step.template →
      (UI.updateKey m "esc").step = UI.Step.contentType) := by
  constructor
  · rintro (⟨hs, hc⟩ | ⟨hs, hc⟩ | ⟨hs, hc⟩)
    · unfold UI.updateKey UI.dispatch UI.handleColorStepKey
      rw [hs]
      simp [UI.Step.idx, hc]
    · unfold UI.updateKey UI.dispatch UI.handleBgColorStepKey
      rw [hs]
      simp [UI.Step.idx, hc]
    · unfold UI.updateKey UI.dispatch UI.handleOutputStepKey UI.handleOutputFileBrowserKey
      rw [hs]
      by_cases hn : m.fpNameMode <;> simp [UI.Step.idx, hc, hn]
  · intro hs
    unfold UI.updateKey UI.previousStep
    rw [hs]
    simp [UI.Step.idx]

/-- Witness for C3 (amended) at concrete models: custom-color entry keeps
the step; Template-step Esc lands on ContentType. -/
theorem subMode_esc_spec_witness :
    (UI.updateKey UI.customColorModel "esc").step = UI.customColorModel.step ∧
    (UI.updateKey UI.wifiTemplateModel "esc").step = UI.Step.contentType :=
  ⟨(subMode_esc_spec UI.customColorModel).1 (Or.inl ⟨rfl, rfl⟩),
   (subMode_esc_spec UI.wifiTemplateModel).2 rfl⟩

/-- C8: on the Template step, Enter with failing type-specific validation
(WiFi: empty trimmed SSID; Contact: both trimmed names empty; Email:
empty trimmed address; SMS: empty trimmed phone) leaves the model
unchanged — the confirmed flag stays false, the step does not change, the
encoded result is not written, and no error is recorded. -/
theorem templateStep_invalid_enter_spec (m : UI.UIModel) (tw : UI.TemplateWizard)
    (hm : m.tw = some tw) (hs : m.step = UI.Step.template)
    (hc : tw.confirmed = false)
    (hv : (tw.contentType = Templates.ContentType.wifi ∧
            Go.goTrimSpace tw.wifiSSID = "") ∨
          (tw.contentType = Templates.ContentType.vcard ∧
            Go.goTrimSpace tw.vcardFirstName = "" ∧
            Go.goTrimSpace tw.vcardLastName = "") ∨
          (tw.contentType = Templates.ContentType.email ∧
            Go.goTrimSpace tw.emailAddress = "") ∨
          (tw.contentType = Templates.ContentType.sms ∧
            Go.goTrimSpace tw.smsPhone = "")) :
    UI.updateKey m "enter" = m := by
  have hd := updateKey_enter_template m hs
  rw [hd]
  unfold UI.handleTemplateStepKey
  rw [hm]
  dsimp only
  have htry : UI.tryEncode tw = (false, tw) := by
    rcases hv with ⟨hct, h1⟩ | ⟨hct, h1, h2⟩ | ⟨hct, h1⟩ | ⟨hct, h1⟩
    · unfold UI.tryEncode
      rw [hct]
      simp [h1]
    · unfold UI.tryEncode
      rw [hct]
      simp [h1, h2]
    · unfold UI.tryEncode
      rw [hct]
      simp [h1]
    · unfold UI.tryEncode
      rw [hct]
      simp [h1]
  have htu : UI.twUpdate tw "enter" = tw := by
    unfold UI.twUpdate
    simp [htry]
  rw [htu, hc]
  simp only [Bool.false_eq_true, if_false]
  rw [← hm]

/-- Witness for C8: a fresh WiFi sub-form (empty SSID) on the Template
step is left untouched by Enter. -/
theorem templateStep_invalid_enter_spec_witness :
    UI.updateKey UI.wifiTemplateModel "enter" = UI.wifiTemplateModel :=
  templateStep_invalid_enter_spec UI.wifiTemplateModel
    (UI.newTemplateWizard Templates.ContentType.wifi) rfl rfl rfl
    (Or.inl ⟨rfl, by decide⟩)

end QRGen


